import Mathlib

/-!
Verification of the value-transformation and connection-lifecycle layer of the
`kysely-bun-psql` adapter (a Kysely dialect over Bun's native PostgreSQL
client).

The embedding follows the TypeScript source:
* `transformValue` / `createPostgresArray` from `src/utils.ts`,
* `createJsonArrayString` (the `jsonbArray` helper) from the utils revision
  that introduced it,
* `BunConnection.executeQuery` / `releaseConnection` / `streamQuery` from the
  connection module, and `BunDriver.acquireConnection` / `destroy` from
  `src/driver.ts`.

JavaScript strings are modelled as `List Char`. A JavaScript number is
abstracted by its decimal string form (the result of `String(n)` /
`JSON.stringify(n)` for finite numbers); the claims under study never inspect
numeric values beyond that rendering. Operations that can throw in JavaScript
return `Option` / `Except`.
-/

/-- A JavaScript value as it can appear in a compiled query's parameter list:
`null`, `undefined`, a string, a (finite) number abstracted by its decimal
string form, a boolean, an array, or a plain object (ordered key/value
fields, keys being strings). -/
inductive Value where
  | vNull : Value
  | vUndefined : Value
  | str : List Char → Value
  | num : List Char → Value
  | bool : Bool → Value
  | arr : List Value → Value
  | obj : List (List Char × Value) → Value

/-- `Array.isArray(value)`. -/
def isArrayV : Value → Bool
  | Value.arr _ => true
  | _ => false

/-- Primitive in the sense of the spec's array classification: a string,
number, boolean or `null` (not an array, not an object, not `undefined`). -/
def isPrimitive : Value → Bool
  | Value.vNull => true
  | Value.str _ => true
  | Value.num _ => true
  | Value.bool _ => true
  | _ => false

/-- `concatMap f l`: concatenation of `f` over the list, used to model
per-character string rewriting. -/
def concatMap (f : α → List β) : List α → List β
  | [] => []
  | x :: xs => f x ++ concatMap f xs

/-- `s.replace(/target/g, repl)` for a single-character pattern: every
occurrence of `target` is replaced by `repl`. -/
def replaceChar (target : Char) (repl : List Char) (s : List Char) : List Char :=
  concatMap (fun c => if c = target then repl else [c]) s

/-- The source's escaping for an element of a PostgreSQL array literal:
`item.replace(/\\/g, "\\\\").replace(/"/g, '\\"')` — first double every
backslash, then turn every double quote into backslash-quote. -/
def escapePg (s : List Char) : List Char :=
  replaceChar '"' ['\\', '"'] (replaceChar '\\' ['\\', '\\'] s)

/-- Wrap a rendered element in double quotes. -/
def quoteWrap (s : List Char) : List Char :=
  '"' :: s ++ ['"']

/-- Wrap rendered elements in curly braces, i.e. the PostgreSQL array
literal shell. -/
def braced (s : List Char) : List Char :=
  '{' :: s ++ ['}']

/-- Square-bracket shell of a JSON array text. -/
def bracketed (s : List Char) : List Char :=
  '[' :: s ++ [']']

/-- `elements.join(",")`. -/
def joinComma : List (List Char) → List Char
  | [] => []
  | [e] => e
  | e :: es => e ++ ',' :: joinComma es

/-- `String(b)` for a boolean. -/
def jsBoolString (b : Bool) : List Char :=
  if b then "true".toList else "false".toList

/-- Lower-case hex digit of `n % 16`. -/
def hexDigit (n : Nat) : Char :=
  if n < 10 then Char.ofNat (48 + n) else Char.ofNat (87 + n)

/-- JSON escaping of one character inside a JSON string literal, as
`JSON.stringify` performs it. -/
def jsonEscapeChar (c : Char) : List Char :=
  if c = '"' then ['\\', '"']
  else if c = '\\' then ['\\', '\\']
  else if c = '\n' then ['\\', 'n']
  else if c = '\r' then ['\\', 'r']
  else if c = '\t' then ['\\', 't']
  else if c = Char.ofNat 8 then ['\\', 'b']
  else if c = Char.ofNat 12 then ['\\', 'f']
  else if c.toNat < 32 then
    ['\\', 'u', '0', '0', hexDigit (c.toNat / 16), hexDigit (c.toNat % 16)]
  else [c]

/-- `JSON.stringify` of a string: quote-wrapped, characters escaped. -/
def jsonQuote (s : List Char) : List Char :=
  quoteWrap (concatMap jsonEscapeChar s)

mutual
/-- The JSON text `JSON.stringify` produces for a value, for values in
serializable position (inside an array an `undefined` element renders as
`null`; a top-level `undefined` is handled by `jsonStringify` below). -/
def jsonRenderVal : Value → List Char
  | Value.vNull => "null".toList
  | Value.vUndefined => "null".toList
  | Value.str s => jsonQuote s
  | Value.num r => r
  | Value.bool b => jsBoolString b
  | Value.arr l => bracketed (joinComma (jsonRenderElems l))
  | Value.obj fs => braced (joinComma (jsonRenderFields fs))

/-- JSON texts of an array's elements, in order. -/
def jsonRenderElems : List Value → List (List Char)
  | [] => []
  | v :: vs => jsonRenderVal v :: jsonRenderElems vs

/-- JSON texts of an object's fields, in order; fields whose value is
`undefined` are omitted, as `JSON.stringify` omits them. -/
def jsonRenderFields : List (List Char × Value) → List (List Char)
  | [] => []
  | (_, Value.vUndefined) :: fs => jsonRenderFields fs
  | (k, v) :: fs => (jsonQuote k ++ ':' :: jsonRenderVal v) :: jsonRenderFields fs
end

/-- Whether `JSON.stringify` returns a string for this value (it returns
`undefined` — modelled as `none` — for a top-level `undefined`). -/
def jsonDefined : Value → Bool
  | Value.vUndefined => false
  | _ => true

/-- `JSON.stringify(value)`: `none` models the `undefined` result. -/
def jsonStringify (v : Value) : Option (List Char) :=
  if jsonDefined v then some (jsonRenderVal v) else none

mutual
/-- One element of `createPostgresArray`'s `.map` callback, from
`src/utils.ts`: `null` renders as the token `NULL`; a string is escaped and
quote-wrapped; a non-array object is `JSON.stringify`-ed, escaped and
quote-wrapped; a nested array recurses; anything else renders as
`String(item)`. -/
def serializeItem : Value → Option (List Char)
  | Value.vNull => some "NULL".toList
  | Value.str s => some (quoteWrap (escapePg s))
  | Value.obj fields =>
      (jsonStringify (Value.obj fields)).map (fun js => quoteWrap (escapePg js))
  | Value.arr l => (serializeItems l).map (fun es => braced (joinComma es))
  | Value.num r => some r
  | Value.bool b => some (jsBoolString b)
  | Value.vUndefined => some "undefined".toList

/-- The `.map` over the array's items; a `none` from any item (a thrown
JavaScript error) propagates. -/
def serializeItems : List Value → Option (List (List Char))
  | [] => some []
  | v :: vs =>
      match serializeItem v, serializeItems vs with
      | some e, some es => some (e :: es)
      | _, _ => none
end

/-- `createPostgresArray(arr)` from `src/utils.ts`: serialize the items,
join with commas, wrap in braces. -/
def createPostgresArray (arr : List Value) : Option (List Char) :=
  (serializeItems arr).map (fun es => braced (joinComma es))

/-- The result of `transformValue`: either the input value passed through
unchanged, or a produced literal string. -/
inductive Transformed where
  | passthrough : Value → Transformed
  | literal : List Char → Transformed

/-- `transformValue(value)` from `src/utils.ts`: arrays become a PostgreSQL
array literal via `createPostgresArray`; everything else passes through. -/
def transformValue (value : Value) : Option Transformed :=
  match value with
  | Value.arr l => (createPostgresArray l).map Transformed.literal
  | v => some (Transformed.passthrough v)

/-- `List.mapM` over `Option`, written out to model a `.map` callback whose
body can throw. -/
def mapOptList (f : α → Option β) : List α → Option (List β)
  | [] => some []
  | x :: xs =>
      match f x, mapOptList f xs with
      | some y, some ys => some (y :: ys)
      | _, _ => none

/-- One element of `createJsonArrayString`'s `.map` callback: a `null` item
becomes the bare token `null`; otherwise the item's `JSON.stringify` text is
escaped and quote-wrapped. -/
def jsonArrayElem (item : Value) : Option (List Char) :=
  match item with
  | Value.vNull => some "null".toList
  | _ => (jsonStringify item).map (fun js => quoteWrap (escapePg js))

/-- `createJsonArrayString(arr)` — the `jsonbArray` helper's serializer for
`JSONB[]` fields: the empty array yields the literal braces; otherwise each
item is serialized by `jsonArrayElem`, joined with commas, and wrapped in
braces. -/
def createJsonArrayString (arr : List Value) : Option (List Char) :=
  if arr.length = 0 then some (braced [])
  else (mapOptList jsonArrayElem arr).map (fun es => braced (joinComma es))

/-!
Connection and driver layer. One reserved session is modelled as a response
function: given the SQL text and the transformed parameters it answers with
the backend's result (command tag, server-reported affected count, returned
records). The adapter's own code — building the `QueryResult`, the release
and stream stubs, and the driver's acquire/destroy wiring — is embedded from
`src/connection.ts` (appended to `src/utils.ts` in this snapshot) and
`src/driver.ts`.
-/

/-- What the session's `unsafe(sql, params)` call answers with: the command
tag of the executed statement, the server-reported affected-row count (which
the adapter never reads), and the returned records (`result.values()`). -/
structure SqlCommandResult (R : Type) where
  command : String
  serverCount : Nat
  values : List R

/-- A reserved session, abstracted as its response to `unsafe`. -/
def Session (R : Type) : Type :=
  String → List Transformed → SqlCommandResult R

/-- `CompiledQuery`: SQL text plus the ordered parameter list. -/
structure CompiledQueryV where
  sql : String
  parameters : List Value

/-- Errors an adapter operation can surface: the adapter-authored
`BunDialectError` kind (modelled from the spec: the errors module defining
the `BunDialectError` class is not among the provided sources; the spec
describes it as the single dedicated "unsupported operation" error kind
carrying a message), a JavaScript `TypeError` from calling a method on the
nulled session reference, a `TypeError` thrown inside parameter
transformation, and the native client's rejection of `reserve()` on a
closed pool. -/
inductive AdapterError where
  | bunDialectError : String → AdapterError
  | nullSessionUse : AdapterError
  | transformThrow : AdapterError
  | poolClosed : AdapterError

/-- `BunConnection`: holds the private `#reservedConnection` field, which
`releaseConnection` nulls out (`none`). -/
structure BunConnection (R : Type) where
  reservedConnection : Option (Session R)

/-- `compiledQuery.parameters.map(transformValue)`. -/
def transformParams (q : CompiledQueryV) : Option (List Transformed) :=
  mapOptList transformValue q.parameters

/-- Kysely's `QueryResult`: the ordered rows plus the optional
`numAffectedRows` field (`none` models the field being absent). -/
structure QueryResultV (R : Type) where
  rows : List R
  numAffectedRows : Option Nat

/-- The result-shaping tail of `BunConnection.executeQuery`: rows are the
backend's records; when the command tag is one of `INSERT`, `UPDATE`,
`DELETE` the result additionally carries `numAffectedRows =
BigInt(rows.length)` — the count of returned rows, not the server-reported
affected count. -/
def buildQueryResult (result : SqlCommandResult R) : QueryResultV R :=
  let rows := result.values
  if (["INSERT", "UPDATE", "DELETE"] : List String).contains result.command
  then { rows := rows, numAffectedRows := some rows.length }
  else { rows := rows, numAffectedRows := none }

/-- `BunConnection.executeQuery(compiledQuery)`: transform the parameters,
call `unsafe` on the held session (a `TypeError` if the reference was
nulled by `releaseConnection`), and shape the result. -/
def executeQuery (c : BunConnection R) (q : CompiledQueryV) :
    Except AdapterError (QueryResultV R) :=
  match transformParams q with
  | none => Except.error AdapterError.transformThrow
  | some ps =>
      match c.reservedConnection with
      | none => Except.error AdapterError.nullSessionUse
      | some session => Except.ok (buildQueryResult (session q.sql ps))

/-- `BunConnection.releaseConnection()`: `release()` the session, then null
the reference. On an already-nulled reference `release()` throws first, so
the (already `none`) field is left as is. -/
def releaseConnection (c : BunConnection R) : BunConnection R :=
  match c.reservedConnection with
  | some _ => { reservedConnection := none }
  | none => c

/-- Operations a caller can issue against one connection wrapper.
`beginTx`/`commitTx`/`rollbackTx` run their statements through
`executeQuery`; none of them assigns `#reservedConnection`. -/
inductive ConnOp where
  | execute : CompiledQueryV → ConnOp
  | beginTx : Option String → ConnOp
  | commitTx : ConnOp
  | rollbackTx : ConnOp
  | releaseConn : ConnOp
  | streamQ : ConnOp

/-- Effect of one operation on the wrapper's session reference: only
`releaseConnection` writes the field. -/
def connStep (c : BunConnection R) : ConnOp → BunConnection R
  | ConnOp.releaseConn => releaseConnection c
  | _ => c

/-- A sequence of operations against the same wrapper. -/
def connApply (c : BunConnection R) : List ConnOp → BunConnection R
  | [] => c
  | op :: ops => connApply (connStep c op) ops

/-- The pool handle of Bun's `SQL` client, as the adapter observes it.
Modelled from the spec's external-interface contract of the native client:
`close()` tears the pool down, and a torn-down pool can no longer produce a
reserved session, while an open pool's `reserve()` yields one. -/
structure SQLPool (R : Type) where
  closed : Bool
  reserveSession : Session R

/-- `BunDriver`: owns the private `#sql` pool handle. -/
structure BunDriver (R : Type) where
  sql : SQLPool R

/-- `BunDriver.acquireConnection()`: reserve a session from the pool and
wrap it; fails when the pool has been closed. -/
def acquireConnection (d : BunDriver R) :
    Except AdapterError (BunConnection R) :=
  if d.sql.closed then Except.error AdapterError.poolClosed
  else Except.ok { reservedConnection := some d.sql.reserveSession }

/-- Operations on the driver. `destroy` is `this.#sql.close()`; the
transaction operations delegate to a connection wrapper and never touch the
pool handle; `acquire` reserves a session without changing the closed
flag. -/
inductive DriverOp where
  | initOp : DriverOp
  | acquire : DriverOp
  | beginTx : DriverOp
  | commitTx : DriverOp
  | rollbackTx : DriverOp
  | releaseConn : DriverOp
  | destroy : DriverOp

/-- Effect of one driver operation on the pool handle. -/
def driverStep (d : BunDriver R) : DriverOp → BunDriver R
  | DriverOp.destroy => { sql := { d.sql with closed := true } }
  | _ => d

/-- A sequence of operations against the same driver. -/
def driverApply (d : BunDriver R) : List DriverOp → BunDriver R
  | [] => d
  | op :: ops => driverApply (driverStep d op) ops

/-- A generator's observable behaviour: the elements it yields, in order,
then either normal completion or a thrown error. -/
inductive GenBody (α : Type) where
  | stop : GenBody α
  | yieldNext : α → GenBody α → GenBody α
  | throwErr : AdapterError → GenBody α

/-- Elements a generator yields before finishing. -/
def genYields : GenBody α → List α
  | GenBody.stop => []
  | GenBody.yieldNext x rest => x :: genYields rest
  | GenBody.throwErr _ => []

/-- The error a generator ends with, if any. -/
def genError : GenBody α → Option AdapterError
  | GenBody.stop => none
  | GenBody.yieldNext _ rest => genError rest
  | GenBody.throwErr e => some e

/-- `BunConnection.streamQuery`: the body throws the dedicated
`BunDialectError` before yielding anything, for every connection state and
every input. -/
def streamQuery (_c : BunConnection R) (_q : CompiledQueryV) :
    GenBody (QueryResultV R) :=
  GenBody.throwErr (AdapterError.bunDialectError "streamQuery is not supported")


/-!
Spec-side definitions. These follow the words of the specification and of
the claims, to be compared against the embedded source functions above.
-/

/-- Spec's escaping of one character for inclusion in an array literal:
a backslash becomes a double backslash, a double quote becomes
backslash-quote, anything else stays. -/
def escapeSpecChar (c : Char) : List Char :=
  if c = '\\' then ['\\', '\\']
  else if c = '"' then ['\\', '"']
  else [c]

/-- Spec's escaping of a whole string, as a single character-wise pass. -/
def escapeSpec (s : List Char) : List Char :=
  concatMap escapeSpecChar s

/-- The ordinary string form `String(x)` of a value, as the claims use the
phrase for primitives (arrays and objects never reach this rendering in any
claim). -/
def jsToString : Value → List Char
  | Value.vNull => "null".toList
  | Value.vUndefined => "undefined".toList
  | Value.num r => r
  | Value.bool b => jsBoolString b
  | Value.str s => s
  | _ => []

/-- Claim C1's rendering of one primitive element: a string is escaped and
quote-wrapped, every other primitive is rendered via its ordinary string
form. -/
def claimedPrimitiveElem : Value → List Char
  | Value.str s => quoteWrap (escapeSpec s)
  | v => jsToString v

/-- Claim C1's predicted literal for an all-primitive array. -/
def claimedPrimitiveArrayLiteral (xs : List Value) : List Char :=
  braced (joinComma (xs.map claimedPrimitiveElem))

/-- The amended rendering of one primitive element: as in claim C1, except
that a `null` element renders as the token `NULL`. -/
def amendedPrimitiveElem : Value → List Char
  | Value.vNull => "NULL".toList
  | Value.str s => quoteWrap (escapeSpec s)
  | v => jsToString v

/-- The amended literal for an all-primitive array. -/
def amendedPrimitiveArrayLiteral (xs : List Value) : List Char :=
  braced (joinComma (xs.map amendedPrimitiveElem))

/-- The spec's rendering of one element of the `jsonbArray` helper's
literal: a `null` element is the bare token `null`; any other element is
its JSON text, escaped and wrapped in double quotes. -/
def specJsonbElem : Value → List Char
  | Value.vNull => "null".toList
  | item => quoteWrap (escapeSpec (jsonRenderVal item))

/-- The spec's predicted `jsonbArray` literal: elements joined with commas
inside braces (so the empty input yields the bare braces). -/
def specJsonbArrayLiteral (arr : List Value) : List Char :=
  braced (joinComma (arr.map specJsonbElem))

/-- The PostgreSQL array-literal parsing of one character run inside a
double-quoted element: a backslash escapes the character after it. -/
def pgUnescape : List Char → List Char
  | [] => []
  | [c] => [c]
  | c :: d :: rest =>
      if c = '\\' then d :: pgUnescape rest
      else c :: pgUnescape (d :: rest)

/-- The PostgreSQL array-literal parsing of a double-quoted element: strip
the surrounding quotes and unescape the inside. -/
def pgParseQuoted : List Char → Option (List Char)
  | '"' :: rest =>
      match rest.reverse with
      | '"' :: revMid => some (pgUnescape revMid.reverse)
      | _ => none
  | _ => none

/-!
Helper lemmas.
-/

/-- `concatMap` distributes over append. -/
theorem concatMap_append (f : α → List β) (a b : List α) :
    concatMap f (a ++ b) = concatMap f a ++ concatMap f b := by
  induction a with
  | nil => rfl
  | cons x xs ih => simp [concatMap, ih]

/-- `replaceChar` distributes over append. -/
theorem replaceChar_append (t : Char) (r : List Char) (a b : List Char) :
    replaceChar t r (a ++ b) = replaceChar t r a ++ replaceChar t r b :=
  concatMap_append _ a b

/-- The source's two sequential global replaces equal the spec's single
character-wise pass: doubling backslashes first and then escaping quotes
never rewrites a character produced by the first pass. -/
theorem escapePg_eq_escapeSpec (s : List Char) : escapePg s = escapeSpec s := by
  induction s with
  | nil => rfl
  | cons c cs ih =>
      have h1 : replaceChar '\\' ['\\', '\\'] (c :: cs) =
          (if c = '\\' then ['\\', '\\'] else [c]) ++ replaceChar '\\' ['\\', '\\'] cs := rfl
      have h2 : escapeSpec (c :: cs) = escapeSpecChar c ++ escapeSpec cs := rfl
      rw [escapePg, h1, replaceChar_append, h2]
      rw [show replaceChar '"' ['\\', '"'] (replaceChar '\\' ['\\', '\\'] cs) = escapePg cs from rfl, ih]
      by_cases hb : c = '\\'
      · subst hb; rfl
      · by_cases hq : c = '"'
        · subst hq; rfl
        · simp [escapeSpecChar, replaceChar, concatMap, hb, hq]

/-- Unescaping inverts the spec's escaping. -/
theorem pgUnescape_escapeSpec (s : List Char) : pgUnescape (escapeSpec s) = s := by
  induction s with
  | nil => rfl
  | cons c cs ih =>
      have h2 : escapeSpec (c :: cs) = escapeSpecChar c ++ escapeSpec cs := rfl
      rw [h2]
      by_cases hb : c = '\\'
      · subst hb
        simpa [escapeSpecChar, pgUnescape] using ih
      · by_cases hq : c = '"'
        · subst hq
          simpa [escapeSpecChar, hb, pgUnescape] using ih
        · rw [show escapeSpecChar c = [c] by simp [escapeSpecChar, hb, hq]]
          cases h : escapeSpec cs with
          | nil =>
              rw [h] at ih
              simp [pgUnescape, ← ih]
          | cons d rest =>
              rw [h] at ih
              simp [pgUnescape, hb, ih]

mutual
/-- `serializeItem` never throws: every item of an array has a rendering. -/
theorem serializeItem_isSome (v : Value) : ∃ e, serializeItem v = some e := by
  match v with
  | Value.vNull => exact ⟨_, rfl⟩
  | Value.vUndefined => exact ⟨_, rfl⟩
  | Value.str s => exact ⟨_, rfl⟩
  | Value.num r => exact ⟨_, rfl⟩
  | Value.bool b => exact ⟨_, rfl⟩
  | Value.obj fields => exact ⟨_, rfl⟩
  | Value.arr l =>
      obtain ⟨es, hes⟩ := serializeItems_isSome l
      exact ⟨braced (joinComma es), by simp [serializeItem, hes]⟩

/-- `serializeItems` never throws. -/
theorem serializeItems_isSome (l : List Value) : ∃ es, serializeItems l = some es := by
  match l with
  | [] => exact ⟨[], rfl⟩
  | v :: vs =>
      obtain ⟨e, he⟩ := serializeItem_isSome v
      obtain ⟨es, hes⟩ := serializeItems_isSome vs
      exact ⟨e :: es, by simp [serializeItems, he, hes]⟩
end

/-- `serializeItems` on an append combines the two runs. -/
theorem serializeItems_append (a b : List Value) (ea eb : List (List Char))
    (ha : serializeItems a = some ea) (hb : serializeItems b = some eb) :
    serializeItems (a ++ b) = some (ea ++ eb) := by
  induction a generalizing ea with
  | nil =>
      simp only [serializeItems] at ha
      cases ha
      simpa using hb
  | cons v vs ih =>
      simp only [serializeItems] at ha
      cases hv : serializeItem v with
      | none => rw [hv] at ha; cases ha
      | some e =>
          rw [hv] at ha
          cases hvs : serializeItems vs with
          | none => rw [hvs] at ha; cases ha
          | some es =>
              rw [hvs] at ha
              cases ha
              simp [serializeItems, hv, ih es hvs]

/-- `transformValue` never throws. -/
theorem transformValue_isSome (v : Value) : ∃ t, transformValue v = some t := by
  cases v with
  | arr l =>
      obtain ⟨es, hes⟩ := serializeItems_isSome l
      exact ⟨Transformed.literal (braced (joinComma es)),
        by simp [transformValue, createPostgresArray, hes]⟩
  | vNull => exact ⟨_, rfl⟩
  | vUndefined => exact ⟨_, rfl⟩
  | str s => exact ⟨_, rfl⟩
  | num r => exact ⟨_, rfl⟩
  | bool b => exact ⟨_, rfl⟩
  | obj fields => exact ⟨_, rfl⟩

/-- Transforming a whole parameter list never throws. -/
theorem transformParams_isSome (q : CompiledQueryV) :
    ∃ ps, transformParams q = some ps := by
  rw [transformParams]
  induction q.parameters with
  | nil => exact ⟨[], rfl⟩
  | cons v vs ih =>
      obtain ⟨t, ht⟩ := transformValue_isSome v
      obtain ⟨ps, hps⟩ := ih
      exact ⟨t :: ps, by simp [mapOptList, ht, hps]⟩

/-!
Claim theorems.
-/

/-- Claim C1, counterexample: for the all-primitive array `[null]` the
transformer produces the literal with the uppercase token `NULL`, not the
ordinary string form `null` that the claim's rendering predicts. -/
theorem c1_claim_counterexample :
    transformValue (Value.arr [Value.vNull]) =
      some (Transformed.literal ['{', 'N', 'U', 'L', 'L', '}']) ∧
    claimedPrimitiveArrayLiteral [Value.vNull] = ['{', 'n', 'u', 'l', 'l', '}'] ∧
    (['{', 'N', 'U', 'L', 'L', '}'] : List Char) ≠ ['{', 'n', 'u', 'l', 'l', '}'] :=
  ⟨rfl, rfl, by decide⟩

/-- Claim C1 (amended): for every array all of whose elements are primitives
(string, number, boolean, or null; no nested arrays, no objects),
`transformValue` returns the PostgreSQL array literal in element order,
where each string element is wrapped in double quotes with backslashes and
double quotes escaped, each `null` element is rendered as the token `NULL`,
and each other non-string primitive element is rendered via its ordinary
string form. -/
theorem c1_primitive_array_literal (xs : List Value)
    (h : ∀ x ∈ xs, isPrimitive x = true) :
    transformValue (Value.arr xs) =
      some (Transformed.literal (amendedPrimitiveArrayLiteral xs)) := by
  have hitems : serializeItems xs = some (xs.map amendedPrimitiveElem) := by
    induction xs with
    | nil => rfl
    | cons x rest ih =>
        have hx : isPrimitive x = true := h x (by simp)
        have hrest : serializeItems rest = some (rest.map amendedPrimitiveElem) :=
          ih (fun y hy => h y (by simp [hy]))
        cases x with
        | vNull => simp [serializeItems, serializeItem, hrest, amendedPrimitiveElem]
        | str s =>
            simp [serializeItems, serializeItem, hrest, amendedPrimitiveElem,
              escapePg_eq_escapeSpec]
        | num r =>
            simp [serializeItems, serializeItem, hrest, amendedPrimitiveElem, jsToString]
        | bool b =>
            simp [serializeItems, serializeItem, hrest, amendedPrimitiveElem, jsToString]
        | vUndefined => simp [isPrimitive] at hx
        | arr l => simp [isPrimitive] at hx
        | obj fields => simp [isPrimitive] at hx
  simp [transformValue, createPostgresArray, hitems, amendedPrimitiveArrayLiteral]

/-- Witness for C1's amended theorem at a concrete all-primitive array. -/
theorem c1_primitive_array_literal_witness :
    (∀ x ∈ ([Value.str ['a', '"', 'b'], Value.num ['4', '2'], Value.bool true,
        Value.vNull] : List Value), isPrimitive x = true) ∧
    transformValue (Value.arr [Value.str ['a', '"', 'b'], Value.num ['4', '2'],
        Value.bool true, Value.vNull]) =
      some (Transformed.literal (amendedPrimitiveArrayLiteral
        [Value.str ['a', '"', 'b'], Value.num ['4', '2'], Value.bool true,
          Value.vNull])) :=
  ⟨by decide, c1_primitive_array_literal _ (by decide)⟩

/-- Elements of the `jsonbArray` helper's literal agree with the spec's
rendering whenever every element is JSON-serializable. -/
theorem jsonArrayElems_spec (l : List Value)
    (h : ∀ x ∈ l, jsonDefined x = true) :
    mapOptList jsonArrayElem l = some (l.map specJsonbElem) := by
  induction l with
  | nil => rfl
  | cons x rest ih =>
      have hx : jsonDefined x = true := h x (by simp)
      have hrest : mapOptList jsonArrayElem rest = some (rest.map specJsonbElem) :=
        ih (fun y hy => h y (by simp [hy]))
      cases x with
      | vNull => simp [mapOptList, jsonArrayElem, hrest, specJsonbElem]
      | vUndefined => simp [jsonDefined] at hx
      | str s =>
          simp [mapOptList, jsonArrayElem, hrest, specJsonbElem, jsonStringify,
            jsonDefined, escapePg_eq_escapeSpec]
      | num r =>
          simp [mapOptList, jsonArrayElem, hrest, specJsonbElem, jsonStringify,
            jsonDefined, escapePg_eq_escapeSpec]
      | bool b =>
          simp [mapOptList, jsonArrayElem, hrest, specJsonbElem, jsonStringify,
            jsonDefined, escapePg_eq_escapeSpec]
      | arr l2 =>
          simp [mapOptList, jsonArrayElem, hrest, specJsonbElem, jsonStringify,
            jsonDefined, escapePg_eq_escapeSpec]
      | obj fields =>
          simp [mapOptList, jsonArrayElem, hrest, specJsonbElem, jsonStringify,
            jsonDefined, escapePg_eq_escapeSpec]

/-- Claim C2: for every input list of JSON-serializable elements, the
`jsonbArray` helper's serializer renders each element's JSON text escaped
and wrapped in double quotes, renders a `null` element as the bare token
`null`, and joins the results inside braces; in particular the empty list
yields exactly the bare braces. -/
theorem c2_json_array_string (arr : List Value)
    (h : ∀ x ∈ arr, jsonDefined x = true) :
    createJsonArrayString arr = some (specJsonbArrayLiteral arr) := by
  cases arr with
  | nil => rfl
  | cons v vs =>
      have helems := jsonArrayElems_spec (v :: vs) h
      simp [createJsonArrayString, helems, specJsonbArrayLiteral]

/-- Witness for C2 at a concrete list: one object (with a quote inside a
field value) and one `null` element. -/
theorem c2_json_array_string_witness :
    (∀ x ∈ ([Value.obj [(['a'], Value.str ['x', '"', 'y'])], Value.vNull] :
        List Value), jsonDefined x = true) ∧
    createJsonArrayString [Value.obj [(['a'], Value.str ['x', '"', 'y'])],
        Value.vNull] =
      some (specJsonbArrayLiteral
        [Value.obj [(['a'], Value.str ['x', '"', 'y'])], Value.vNull]) :=
  ⟨by decide, c2_json_array_string _ (by decide)⟩

/-- Claim C3: `transformValue` is the identity on every non-array input —
`null`, `undefined`, numbers, booleans, strings, and plain objects all pass
through unchanged. -/
theorem c3_non_array_passthrough (v : Value) (h : isArrayV v = false) :
    transformValue v = some (Transformed.passthrough v) := by
  cases v with
  | arr l => simp [isArrayV] at h
  | vNull => rfl
  | vUndefined => rfl
  | str s => rfl
  | num r => rfl
  | bool b => rfl
  | obj fields => rfl

/-- Witness for C3 at a plain object. -/
theorem c3_non_array_passthrough_witness :
    isArrayV (Value.obj [(['k'], Value.num ['7'])]) = false ∧
    transformValue (Value.obj [(['k'], Value.num ['7'])]) =
      some (Transformed.passthrough (Value.obj [(['k'], Value.num ['7'])])) :=
  ⟨rfl, c3_non_array_passthrough _ rfl⟩

/-- Claim C4: for any string containing a backslash or a double quote, the
quoted element the transformer produces, parsed back by the PostgreSQL
array-literal rules (strip the double quotes, drop one level of backslash
escapes), recovers the original string exactly. -/
theorem c4_escape_roundtrip (s : List Char)
    (_h : '\\' ∈ s ∨ '"' ∈ s) :
    pgParseQuoted (quoteWrap (escapePg s)) = some s := by
  have h1 : quoteWrap (escapePg s) = '"' :: (escapePg s ++ ['"']) := rfl
  rw [h1, pgParseQuoted]
  rw [List.reverse_append]
  simp only [List.reverse_cons, List.reverse_nil, List.nil_append,
    List.singleton_append]
  rw [List.reverse_reverse, escapePg_eq_escapeSpec, pgUnescape_escapeSpec]

/-- Witness for C4 at a string containing both a backslash and a quote. -/
theorem c4_escape_roundtrip_witness :
    ('\\' ∈ (['a', '\\', '"', 'b'] : List Char) ∨
      '"' ∈ (['a', '\\', '"', 'b'] : List Char)) ∧
    pgParseQuoted (quoteWrap (escapePg ['a', '\\', '"', 'b'])) =
      some ['a', '\\', '"', 'b'] :=
  ⟨by decide, c4_escape_roundtrip _ (by decide)⟩

/-- Claim C5: `transformValue` is total — for every input value it returns
a result, either a produced literal string or the input itself unchanged,
rather than throwing. -/
theorem c5_transform_total (v : Value) :
    (∃ s, transformValue v = some (Transformed.literal s)) ∨
    transformValue v = some (Transformed.passthrough v) := by
  cases v with
  | arr l =>
      left
      obtain ⟨es, hes⟩ := serializeItems_isSome l
      exact ⟨braced (joinComma es), by simp [transformValue, createPostgresArray, hes]⟩
  | vNull => right; rfl
  | vUndefined => right; rfl
  | str s => right; rfl
  | num r => right; rfl
  | bool b => right; rfl
  | obj fields => right; rfl

/-- `contains` over the three affected-command tags, as a disjunction. -/
theorem affectedVerbs_contains (c : String) :
    ((["INSERT", "UPDATE", "DELETE"] : List String).contains c = true) ↔
      (c = "INSERT" ∨ c = "UPDATE" ∨ c = "DELETE") := by
  simp [List.contains]

/-- Claim C6: every query executed through a live connection wrapper is
shaped by `buildQueryResult` from the session's answer to the transformed
parameters; and in that shape the rows are exactly the returned records
while `numAffectedRows` is present if and only if the command verb is
`INSERT`, `UPDATE` or `DELETE`, in which case it equals the number of
returned rows — regardless of the server-reported affected count. -/
theorem c6_num_affected_rows (R : Type) (session : Session R)
    (q : CompiledQueryV) (res : SqlCommandResult R) :
    (∃ ps, transformParams q = some ps ∧
      executeQuery { reservedConnection := some session } q =
        Except.ok (buildQueryResult (session q.sql ps))) ∧
    (buildQueryResult res).rows = res.values ∧
    (buildQueryResult res).numAffectedRows =
      (if res.command = "INSERT" ∨ res.command = "UPDATE" ∨ res.command = "DELETE"
       then some res.values.length else none) := by
  refine ⟨?_, ?_, ?_⟩
  · obtain ⟨ps, hps⟩ := transformParams_isSome q
    exact ⟨ps, hps, by simp [executeQuery, hps]⟩
  · rw [buildQueryResult]
    split <;> rfl
  · rw [buildQueryResult]
    by_cases hd : res.command = "INSERT" ∨ res.command = "UPDATE" ∨ res.command = "DELETE"
    · rw [if_pos ((affectedVerbs_contains res.command).mpr hd), if_pos hd]
    · rw [if_neg (fun hc => hd ((affectedVerbs_contains res.command).mp hc)), if_neg hd]

/-- A wrapper whose session reference is nulled stays nulled under every
further operation: nothing ever reassigns the field. -/
theorem connStep_preserves_none (c : BunConnection R) (op : ConnOp)
    (h : c.reservedConnection = none) :
    (connStep c op).reservedConnection = none := by
  cases op <;> simp [connStep, releaseConnection, h]

/-- The nulled session reference is absorbing over operation sequences. -/
theorem connApply_preserves_none (ops : List ConnOp) (c : BunConnection R)
    (h : c.reservedConnection = none) :
    (connApply c ops).reservedConnection = none := by
  induction ops generalizing c with
  | nil => exact h
  | cons op rest ih => exact ih _ (connStep_preserves_none c op h)

/-- A destroyed pool handle stays closed under every further operation. -/
theorem driverApply_preserves_closed (dops : List DriverOp) (d : BunDriver R)
    (h : d.sql.closed = true) :
    (driverApply d dops).sql.closed = true := by
  induction dops generalizing d with
  | nil => exact h
  | cons op rest ih =>
      refine ih _ ?_
      cases op <;> simp [driverStep, h]

/-- Claim C7: after `releaseConnection` the wrapper's session reference is
cleared and stays cleared under any further operations, so every subsequent
`executeQuery` fails; and after `destroy` the driver's pool is closed and
stays closed, so every subsequent `acquireConnection` fails. -/
theorem c7_release_destroy_terminal (R : Type) (c : BunConnection R)
    (ops : List ConnOp) (q : CompiledQueryV) (d : BunDriver R)
    (dops : List DriverOp) :
    (connApply (connStep c ConnOp.releaseConn) ops).reservedConnection = none ∧
    executeQuery (connApply (connStep c ConnOp.releaseConn) ops) q =
      Except.error AdapterError.nullSessionUse ∧
    acquireConnection (driverApply (driverStep d DriverOp.destroy) dops) =
      Except.error AdapterError.poolClosed := by
  have h0 : (connStep c ConnOp.releaseConn).reservedConnection = none := by
    cases hc : c.reservedConnection <;> simp [connStep, releaseConnection, hc]
  have h1 := connApply_preserves_none ops _ h0
  have h2 : (driverApply (driverStep d DriverOp.destroy) dops).sql.closed = true :=
    driverApply_preserves_closed dops _ rfl
  refine ⟨h1, ?_, ?_⟩
  · obtain ⟨ps, hps⟩ := transformParams_isSome q
    simp [executeQuery, hps, h1]
  · simp [acquireConnection, h2]

/-- Claim C8: `streamQuery`, on every connection state and every input,
yields no element and fails with the dedicated `BunDialectError` carrying
the "not supported" message. -/
theorem c8_stream_query_unsupported (R : Type) (c : BunConnection R)
    (q : CompiledQueryV) :
    genYields (streamQuery c q) = ([] : List (QueryResultV R)) ∧
    genError (streamQuery c q) =
      some (AdapterError.bunDialectError "streamQuery is not supported") :=
  ⟨rfl, rfl⟩

/-- Claim C9: a nested array element recurses through the same
classification as a top-level array: in any surrounding array it is
rendered exactly as `transformValue` renders it at top level — a braced
literal — and sits at its position inside the outer braces. -/
theorem c9_nested_array_recursion (pre post l : List Value) :
    ∃ ps rs nested,
      serializeItems pre = some ps ∧
      serializeItems post = some rs ∧
      createPostgresArray l = some nested ∧
      transformValue (Value.arr l) = some (Transformed.literal nested) ∧
      (∃ mid, nested = braced mid) ∧
      transformValue (Value.arr (pre ++ Value.arr l :: post)) =
        some (Transformed.literal (braced (joinComma (ps ++ nested :: rs)))) := by
  obtain ⟨ps, hps⟩ := serializeItems_isSome pre
  obtain ⟨rs, hrs⟩ := serializeItems_isSome post
  obtain ⟨es, hes⟩ := serializeItems_isSome l
  refine ⟨ps, rs, braced (joinComma es), hps, hrs, ?_, ?_, ⟨_, rfl⟩, ?_⟩
  · simp [createPostgresArray, hes]
  · simp [transformValue, createPostgresArray, hes]
  · have hmid : serializeItems (Value.arr l :: post) =
        some (braced (joinComma es) :: rs) := by
      simp [serializeItems, serializeItem, hes, hrs]
    have hall := serializeItems_append pre (Value.arr l :: post) ps
      (braced (joinComma es) :: rs) hps hmid
    simp [transformValue, createPostgresArray, hall]

/-- Claim C10: an array with a plain-object element anywhere in it is
force-serialized by `transformValue` into a literal string (never passed
through), and the object element is rendered as its `JSON.stringify` text,
escaped (backslash to double backslash, then quote to backslash-quote) and
wrapped in double quotes, at its position inside the braces. -/
theorem c10_object_array_forced_literal (pre : List Value)
    (fields : List (List Char × Value)) (post : List Value) :
    ∃ ps rs,
      serializeItems pre = some ps ∧
      serializeItems post = some rs ∧
      transformValue (Value.arr (pre ++ Value.obj fields :: post)) =
        some (Transformed.literal (braced (joinComma
          (ps ++ quoteWrap (escapeSpec (jsonRenderVal (Value.obj fields))) :: rs)))) := by
  obtain ⟨ps, hps⟩ := serializeItems_isSome pre
  obtain ⟨rs, hrs⟩ := serializeItems_isSome post
  refine ⟨ps, rs, hps, hrs, ?_⟩
  have hobj : serializeItem (Value.obj fields) =
      some (quoteWrap (escapeSpec (jsonRenderVal (Value.obj fields)))) := by
    simp [serializeItem, jsonStringify, jsonDefined, escapePg_eq_escapeSpec]
  have hmid : serializeItems (Value.obj fields :: post) =
      some (quoteWrap (escapeSpec (jsonRenderVal (Value.obj fields))) :: rs) := by
    simp [serializeItems, hobj, hrs]
  have hall := serializeItems_append pre (Value.obj fields :: post) ps _ hps hmid
  simp [transformValue, createPostgresArray, hall]
